import Mathlib

/-!
Verification of the VIXL AArch64 simulator execution engine
(src/aarch64/simulator-aarch64.cc) against its natural-language
specification.

The definitions below are shallow embeddings of the simulator's helper
functions and instruction handlers.  Machine integers are modelled as
`Nat` (bit patterns) or `Int` (signed values) with explicit masking by
`2 ^ size`; fallible or state-mutating code is modelled by explicit
state passing.  Each definition's doc comment names the source function
it embeds.
-/

namespace Vixl

/-- `kWRegSize` from the source: a W register holds 32 bits. -/
def kWRegSize : Nat := 32

/-- `kXRegSize` from the source: an X register holds 64 bits. -/
def kXRegSize : Nat := 64

/-- `kWMaxUInt`: the maximum unsigned 32-bit value. -/
def kWMaxUInt : Nat := 2 ^ 32 - 1

/-- `kXMaxUInt`: the maximum unsigned 64-bit value. -/
def kXMaxUInt : Nat := 2 ^ 64 - 1

/-- `kWRegMask`: mask of the low 32 bits. -/
def kWRegMask : Nat := 2 ^ 32 - 1

/-- `kXRegMask`: mask of the low 64 bits. -/
def kXRegMask : Nat := 2 ^ 64 - 1

/-- `kWSignMask`: the sign bit of a 32-bit value. -/
def kWSignMask : Nat := 2 ^ 31

/-- `kXSignMask`: the sign bit of a 64-bit value. -/
def kXSignMask : Nat := 2 ^ 63

/-- `kWMinInt`: the minimum signed 32-bit value. -/
def kWMinInt : Int := -(2 ^ 31)

/-- `kXMinInt`: the minimum signed 64-bit value. -/
def kXMinInt : Int := -(2 ^ 63)

/-- The NZCV condition flags, as stored in the simulator's flags register. -/
structure NZCVFlags where
  n : Bool
  z : Bool
  c : Bool
  v : Bool
deriving DecidableEq, Repr

/-- Modelled from the spec: `CalcNFlag(result, reg_size)` lives in the
simulator header (not under src/); the spec says N is "the result sign
bit", i.e. bit `reg_size - 1` of the result. -/
def CalcNFlag (result : Nat) (regSize : Nat) : Bool :=
  (result >>> (regSize - 1)) &&& 1 = 1

/-- Modelled from the spec: `CalcZFlag(result)` lives in the simulator
header (not under src/); the spec says Z is "result zero". -/
def CalcZFlag (result : Nat) : Bool :=
  result = 0

/-- Embeds `Simulator::AddWithCarry` (simulator-aarch64.cc).  Inputs are
64-bit patterns; the function masks them to `regSize` bits, adds the
carry, and (when `setFlags`) derives the NZCV flags exactly as the
source does: C by comparison against `max_uint - carry_in`, V from the
sign masks of the masked operands and the result.  Returns the result
together with the flags register (unchanged when `setFlags` is false). -/
def AddWithCarry (regSize : Nat) (setFlags : Bool) (left right : Nat)
    (carryIn : Nat) (nzcv : NZCVFlags) : Nat × NZCVFlags :=
  let maxUint := if regSize = kWRegSize then kWMaxUInt else kXMaxUInt
  let regMask := if regSize = kWRegSize then kWRegMask else kXRegMask
  let signMask := if regSize = kWRegSize then kWSignMask else kXSignMask
  let left := left &&& regMask
  let right := right &&& regMask
  let result := (left + right + carryIn) &&& regMask
  if setFlags then
    let maxUint2op := maxUint - carryIn
    let cFlag : Bool := (decide (left > maxUint2op)) ||
                        (decide (maxUint2op - left < right))
    let leftSign := left &&& signMask
    let rightSign := right &&& signMask
    let resultSign := result &&& signMask
    let vFlag : Bool := (decide (leftSign = rightSign)) &&
                        (decide (leftSign ≠ resultSign))
    (result, { n := CalcNFlag result regSize, z := CalcZFlag result,
               c := cFlag, v := vFlag })
  else
    (result, nzcv)

/-- Reinterpret a signed 64-bit value as its unsigned 64-bit bit pattern
(the `static_cast<uint64_t>(value)` in the source). -/
def toNat64 (x : Int) : Nat := (x % (2 ^ 64 : Int)).toNat

/-- Reinterpret an unsigned 64-bit bit pattern as a signed 64-bit value
(the `memcpy` into an `int64_t` in the source). -/
def toInt64 (u : Nat) : Int :=
  if u % 2 ^ 64 < 2 ^ 63 then ((u % 2 ^ 64 : Nat) : Int)
  else ((u % 2 ^ 64 : Nat) : Int) - 2 ^ 64

/-- The four shift kinds of the `Shift` enumeration used by
`Simulator::ShiftOperand`. -/
inductive Shift where
  | LSL
  | LSR
  | ASR
  | ROR
deriving DecidableEq, Repr

/-- Modelled from the spec: `RotateRight(value, amount, width)` is declared
in the VIXL utils header, which is not under src/; the spec says "ROR
rotates within `size` bits". -/
def RotateRight (value amount width : Nat) : Nat :=
  ((value >>> amount) ||| (value <<< (width - amount))) &&& (2 ^ width - 1)

/-- Embeds `Simulator::ShiftOperand` (simulator-aarch64.cc).  `value` is a
signed 64-bit quantity; amount 0 returns it unchanged; otherwise the
source casts to `uint64_t`, shifts (with explicit sign-extension for ASR
and a rotate for ROR), masks to the register size and reinterprets the
bits as signed. -/
def ShiftOperand (regSize : Nat) (value : Int) (shiftType : Shift)
    (amount : Nat) : Int :=
  if amount = 0 then value
  else
    let uvalue := toNat64 value
    let mask := if regSize = kXRegSize then kXRegMask else kWRegMask
    let isNegative : Bool :=
      if regSize = kXRegSize then decide (uvalue &&& kXSignMask ≠ 0)
      else decide (uvalue &&& kWSignMask ≠ 0)
    let shifted : Nat :=
      match shiftType with
      | .LSL => uvalue <<< amount
      | .LSR => uvalue >>> amount
      | .ASR =>
        let v := uvalue >>> amount
        if isNegative then
          v ||| (((2 ^ 64 - 1) <<< (regSize - amount)) &&& kXRegMask)
        else v
      | .ROR => RotateRight uvalue amount regSize
    toInt64 (shifted &&& mask)

/-- The six extend kinds (plus the X forms) of the `Extend` enumeration
used by `Simulator::ExtendValue`. -/
inductive Extend where
  | UXTB
  | UXTH
  | UXTW
  | UXTX
  | SXTB
  | SXTH
  | SXTW
  | SXTX
deriving DecidableEq, Repr

/-- `kByteMask` from the source. -/
def kByteMask : Nat := 0xff

/-- `kHalfWordMask` from the source. -/
def kHalfWordMask : Nat := 0xffff

/-- `kWordMask` from the source. -/
def kWordMask : Nat := 0xffffffff

/-- Embeds `Simulator::ExtendValue` (simulator-aarch64.cc): mask to the
byte/half/word width, optionally sign-extend into the high bits, then
left-shift via `ShiftOperand` with LSL. -/
def ExtendValue (regSize : Nat) (value : Int) (extendType : Extend)
    (leftShift : Nat) : Int :=
  let u := toNat64 value
  let extended : Nat :=
    match extendType with
    | .UXTB => u &&& kByteMask
    | .UXTH => u &&& kHalfWordMask
    | .UXTW => u &&& kWordMask
    | .SXTB =>
      let v := u &&& kByteMask
      if v &&& 0x80 ≠ 0 then v ||| (((2 ^ 64 - 1) <<< 8) &&& kXRegMask) else v
    | .SXTH =>
      let v := u &&& kHalfWordMask
      if v &&& 0x8000 ≠ 0 then v ||| (((2 ^ 64 - 1) <<< 16) &&& kXRegMask)
      else v
    | .SXTW =>
      let v := u &&& kWordMask
      if v &&& 0x80000000 ≠ 0 then
        v ||| (((2 ^ 64 - 1) <<< 32) &&& kXRegMask)
      else v
    | .UXTX => u
    | .SXTX => u
  ShiftOperand regSize (toInt64 extended) .LSL leftShift

/-- Embeds the SDIV_w / SDIV_x cases of
`Simulator::VisitDataProcessing2Source`: `rn` and `rm` are the signed
register values of the given size; `MinInt / -1` saturates to `MinInt`,
division by zero yields 0, and otherwise C++ division truncates toward
zero (`Int.tdiv`). -/
def SDIV (regSize : Nat) (rn rm : Int) : Int :=
  let minInt := if regSize = kWRegSize then kWMinInt else kXMinInt
  if rn = minInt ∧ rm = -1 then minInt
  else if rm = 0 then 0
  else Int.tdiv rn rm

/-- Embeds the UDIV_w / UDIV_x cases of
`Simulator::VisitDataProcessing2Source`: unsigned division, with a zero
divisor yielding 0. -/
def UDIV (_regSize : Nat) (rn rm : Nat) : Nat :=
  if rm = 0 then 0 else rn / rm

/-- The `BType` guarded-branch classification states of the simulator. -/
inductive BType where
  | DefaultBType
  | BranchFromUnguardedOrToIP
  | BranchFromGuardedNotToIP
  | BranchAndLink
deriving DecidableEq, Repr

/-- The opcodes matched by `UnconditionalBranchToRegisterMask` that
`Simulator::GetBTypeFromInstruction` switches over.  `RET`, `RETAA` and
`RETAB` fall through to the default. -/
inductive BranchToRegOp where
  | BLR
  | BLRAA
  | BLRAB
  | BLRAAZ
  | BLRABZ
  | BR
  | BRAA
  | BRAB
  | BRAAZ
  | BRABZ
  | RET
  | RETAA
  | RETAB
deriving DecidableEq, Repr

/-- Embeds `Simulator::GetBTypeFromInstruction` (simulator-aarch64.cc
lines 1436-1456): link-setting register branches give `BranchAndLink`;
plain register branches give `BranchFromUnguardedOrToIP` when Rn is 16
or 17 or the PC is not in a guarded page, else
`BranchFromGuardedNotToIP`; everything else gives `DefaultBType`. -/
def GetBTypeFromInstruction (op : BranchToRegOp) (rn : Nat)
    (pcInGuardedPage : Bool) : BType :=
  match op with
  | .BLR | .BLRAA | .BLRAB | .BLRAAZ | .BLRABZ => .BranchAndLink
  | .BR | .BRAA | .BRAB | .BRAAZ | .BRABZ =>
    if rn = 16 ∨ rn = 17 ∨ ¬pcInGuardedPage then .BranchFromUnguardedOrToIP
    else .BranchFromGuardedNotToIP
  | _ => .DefaultBType

/-- Embeds the PACIASP/PACIBSP BType check in `Simulator::VisitSystem`
(simulator-aarch64.cc lines 4188-4204).  The switch over `ReadBType()`
breaks on every one of the four states (the code assumes
`SCTLR_EL1.BT0` is zero, which in particular allows execution when
BTYPE is `BranchFromGuardedNotToIP`), so the check never aborts. -/
def PaciSPBTypeCheckAborts (pcInGuardedPage : Bool) (btype : BType) : Bool :=
  if pcInGuardedPage then
    match btype with
    | .BranchFromGuardedNotToIP => false
    | .DefaultBType => false
    | .BranchFromUnguardedOrToIP => false
    | .BranchAndLink => false
  else false

/-- The BTI hint variants handled by `Simulator::VisitSystem`. -/
inductive BTIVariant where
  | BTI
  | BTI_c
  | BTI_j
  | BTI_jc
deriving DecidableEq, Repr

/-- Embeds the BTI hint checks in `Simulator::VisitSystem`
(simulator-aarch64.cc lines 4283-4298): returns `true` exactly when the
source reaches `VIXL_ABORT_WITH_MSG`. -/
def BTICheckAborts (variant : BTIVariant) (pcInGuardedPage : Bool)
    (btype : BType) : Bool :=
  match variant with
  | .BTI_jc => false
  | .BTI => pcInGuardedPage && decide (btype ≠ .DefaultBType)
  | .BTI_c => pcInGuardedPage && decide (btype = .BranchFromGuardedNotToIP)
  | .BTI_j => pcInGuardedPage && decide (btype = .BranchAndLink)

/-- Modelled from the spec: the local exclusive monitor holds a single
`(address, access size)` reservation (spec sections 3 and 4.3).  The
`LocalMonitor` class itself is declared in the simulator header, which
is not under src/; only its use sites are in simulator-aarch64.cc. -/
structure LocalMonitor where
  reservation : Option (Nat × Nat)
deriving DecidableEq, Repr

/-- Modelled from the spec: `MarkExclusive(address, size)` records the
reservation. -/
def LocalMonitor.MarkExclusive (_m : LocalMonitor) (address size : Nat) :
    LocalMonitor :=
  ⟨some (address, size)⟩

/-- Modelled from the spec: `IsExclusive(address, size)` asks whether the
monitor still holds exactly this reservation. -/
def LocalMonitor.IsExclusive (m : LocalMonitor) (address size : Nat) : Bool :=
  m.reservation = some (address, size)

/-- Modelled from the spec: `Clear()` drops any reservation. -/
def LocalMonitor.Clear (_m : LocalMonitor) : LocalMonitor :=
  ⟨none⟩

/-- Embeds the exclusive-load path of `Simulator::VisitLoadStoreExclusive`
(simulator-aarch64.cc line 2364): an exclusive load marks the local
monitor with `(address, access_size)`. -/
def LoadExclusiveStep (m : LocalMonitor) (address accessSize : Nat) :
    LocalMonitor :=
  m.MarkExclusive address accessSize

/-- Outcome of an exclusive store: whether the store was performed, the
status value written to Ws, and the local monitor afterwards. -/
structure StoreExclusiveOutcome where
  doStore : Bool
  status : Nat
  monitor : LocalMonitor
deriving DecidableEq, Repr

/-- Embeds the exclusive-store path of `Simulator::VisitLoadStoreExclusive`
(simulator-aarch64.cc lines 2436-2443): the store is performed iff both
the local and the global monitor consider `(address, access_size)`
exclusive; Ws receives 0 on success and 1 on failure; the local monitor
is cleared in both cases.  The global monitor is shared state declared
outside src/, so its `IsExclusive` answer is a parameter here. -/
def StoreExclusiveStep (globalIsExclusive : Nat → Nat → Bool)
    (m : LocalMonitor) (address accessSize : Nat) : StoreExclusiveOutcome :=
  let doStore := m.IsExclusive address accessSize &&
                 globalIsExclusive address accessSize
  { doStore := doStore
    status := if doStore then 0 else 1
    monitor := m.Clear }

/-- Outcome of a compare-and-swap: the value written to memory (if any),
the value written back to Ws, and the local monitor afterwards. -/
structure CASOutcome where
  memWrite : Option Nat
  rsOut : Nat
  monitor : LocalMonitor
deriving DecidableEq, Repr

/-- Embeds `Simulator::CompareAndSwapHelper<T>` (simulator-aarch64.cc
lines 2187-2223).  `elementSize` is `sizeof(T)`; `rsVal` and `rtVal` are
the raw 64-bit register values, truncated to the element width as
`ReadRegister<T>` does; `data` is the element-sized value
`Memory::Read<T>` returns at the address.  The local monitor is cleared
before the read; memory is written with the new value only on a match;
Ws always receives the pre-swap memory value. -/
def CompareAndSwapHelper (elementSize : Nat) (rsVal rtVal data : Nat)
    (m : LocalMonitor) : CASOutcome :=
  let w := 8 * elementSize
  let comparevalue := rsVal % 2 ^ w
  let newvalue := rtVal % 2 ^ w
  let m := m.Clear
  { memWrite := if data = comparevalue then some newvalue else none
    rsOut := data
    monitor := m }

/-- Outcome of a compare-and-swap pair: values written at the base
address and at `address + elementSize` (if any), the values written to
Ws and W(s+1), and the local monitor afterwards. -/
structure CASPOutcome where
  memWriteAtAddress : Option Nat
  memWriteAtAddress2 : Option Nat
  rsOut : Nat
  rs1Out : Nat
  monitor : LocalMonitor
deriving DecidableEq, Repr

/-- Embeds `Simulator::CompareAndSwapPairHelper<T>` (simulator-aarch64.cc
lines 2226-2284).  `data_high` is read from the base address and
compared against register `rs + 1`; `data_low` is read from
`address + element_size` and compared against register `rs`.  On a full
match, register `rt + 1` is written to the base address and `rt` to
`address + element_size`.  `rs + 1` always receives `data_high` and `rs`
always receives `data_low`; the local monitor is cleared in any case. -/
def CompareAndSwapPairHelper (elementSize : Nat)
    (rsVal rs1Val rtVal rt1Val dataHigh dataLow : Nat)
    (m : LocalMonitor) : CASPOutcome :=
  let w := 8 * elementSize
  let comparevalueHigh := rs1Val % 2 ^ w
  let comparevalueLow := rsVal % 2 ^ w
  let newvalueHigh := rt1Val % 2 ^ w
  let newvalueLow := rtVal % 2 ^ w
  let m := m.Clear
  let same := dataHigh = comparevalueHigh ∧ dataLow = comparevalueLow
  { memWriteAtAddress := if same then some newvalueHigh else none
    memWriteAtAddress2 := if same then some newvalueLow else none
    rsOut := dataLow
    rs1Out := dataHigh
    monitor := m }

/-- Interpret a `w`-bit pattern as a signed value (the templated signed
type `T` in the atomic helpers). -/
def toSigned (w : Nat) (x : Nat) : Int :=
  if x < 2 ^ (w - 1) then (x : Int) else (x : Int) - 2 ^ w

/-- The operations matched by `AtomicMemorySimpleOpMask` in
`Simulator::AtomicMemorySimpleHelper`. -/
inductive AtomicOp where
  | LDADD
  | LDCLR
  | LDEOR
  | LDSET
  | LDSMAX
  | LDUMAX
  | LDSMIN
  | LDUMIN
deriving DecidableEq, Repr

/-- Outcome of an atomic read-modify-write: the value written back to
memory and the value written to the destination register Wt. -/
structure AtomicRMWOutcome where
  memOut : Nat
  rtOut : Nat
deriving DecidableEq, Repr

/-- Embeds `Simulator::AtomicMemorySimpleHelper<T>` (simulator-aarch64.cc
lines 2501-2563).  `w` is the element width in bits; `value` is
`ReadRegister<T>(rs)` (the raw register value truncated to the element
width); `data` is the old memory value.  The new value is computed by
the opcode's operation — the LDSMAX/LDSMIN comparisons are on the
signed interpretation of the `w`-bit patterns, matching the signed
template instantiations — then written back, and `rt` receives the old
value. -/
def AtomicMemorySimpleHelper (w : Nat) (op : AtomicOp) (rsVal data : Nat) :
    AtomicRMWOutcome :=
  let value := rsVal % 2 ^ w
  let result : Nat :=
    match op with
    | .LDADD => (data + value) % 2 ^ w
    | .LDCLR => data &&& (value ^^^ (2 ^ w - 1))
    | .LDEOR => data ^^^ value
    | .LDSET => data ||| value
    | .LDSMAX => if toSigned w data > toSigned w value then data else value
    | .LDUMAX => if data > value then data else value
    | .LDSMIN => if toSigned w data > toSigned w value then value else data
    | .LDUMIN => if data > value then value else data
  { memOut := result, rtOut := data }

/-- Embeds `Simulator::AtomicMemorySwapHelper<T>` (simulator-aarch64.cc
lines 2565-2595): memory receives `ReadRegister<T>(rs)` and `rt`
receives the old memory value. -/
def AtomicMemorySwapHelper (w : Nat) (rsVal data : Nat) : AtomicRMWOutcome :=
  { memOut := rsVal % 2 ^ w, rtOut := data }

/-- The five pointer-authentication keys. -/
inductive PACKey where
  | IA
  | IB
  | DA
  | DB
  | GA
deriving DecidableEq, Repr

/-- The two pointer kinds distinguished by the PAC helpers. -/
inductive PointerType where
  | instructionPointer
  | dataPointer
deriving DecidableEq, Repr

/-- Modelled from the spec: the PAC helpers live in
pointer-auth-aarch64.cc, which is not under src/.  The code position
"depends on configured virtual-address size and pointer kind"
(spec section 4.4); with the default 48-bit virtual address size the PAC
field occupies bits 48..55, so the top PAC bit is 55 for both kinds. -/
def GetTopPACBit (_ptr : Nat) (_kind : PointerType) : Nat := 55

/-- Modelled from the spec: the lowest PAC bit under the default 48-bit
virtual-address configuration. -/
def GetBottomPACBit (_ptr : Nat) (_kind : PointerType) : Nat := 48

/-- A small injective numbering of the keys, used by the modelled code
function. -/
def PACKey.number : PACKey → Nat
  | .IA => 1
  | .IB => 2
  | .DA => 3
  | .DB => 4
  | .GA => 5

/-- Modelled from the spec: `ComputePAC` is "a keyed cryptographic code
over `(ptr, modifier)`" (spec section 4.4); its implementation is in
pointer-auth-aarch64.cc, not under src/.  Any fixed deterministic keyed
mixing function models it faithfully for the claimed properties. -/
def ComputePAC (data modifier : Nat) (key : PACKey) : Nat :=
  (data * 6364136223846793005 + modifier * 1442695040888963407 +
   key.number * 2862933555777941757 + 3037000493) % 2 ^ 64

/-- Modelled from the spec: `StripPAC` "simply clears the code bits
without checking them" — here bits 48..55 of the 64-bit pointer. -/
def StripPAC (ptr : Nat) (_kind : PointerType) : Nat :=
  ptr % 2 ^ 48 + ptr / 2 ^ 56 * 2 ^ 56

/-- The PAC-field bits of a pointer: bits 48..55. -/
def PACField (ptr : Nat) : Nat :=
  ptr / 2 ^ 48 % 2 ^ 8

/-- Modelled from the spec: `AddPAC(ptr, modifier, key, kind)` "computes a
keyed cryptographic code over `(ptr, modifier)` and splices it into the
unused high bits of `ptr`" (spec section 4.4). -/
def AddPAC (ptr modifier : Nat) (key : PACKey) (kind : PointerType) : Nat :=
  let stripped := StripPAC ptr kind
  stripped + ComputePAC stripped modifier key % 2 ^ 8 * 2 ^ 48

/-- Modelled from the spec: `AuthPAC` "recomputes the code the same way
and compares it against the bits found in the pointer; on mismatch it
corrupts specific marker bits rather than silently failing"
(spec section 4.4).  The marker is placed at bit `GetTopPACBit - 1`,
inside the two-bit field an authenticating branch instruction
inspects. -/
def AuthPAC (ptr modifier : Nat) (key : PACKey) (kind : PointerType) : Nat :=
  let stripped := StripPAC ptr kind
  let pac := ComputePAC stripped modifier key % 2 ^ 8
  if PACField ptr = pac then stripped
  else stripped + 2 ^ (GetTopPACBit ptr kind - 1)

/-- Embeds the authentication-failure check of
`Simulator::VisitUnconditionalBranchToRegister` (simulator-aarch64.cc
lines 1509-1512): after authenticating, the branch aborts when either
of the two bits starting at `GetTopPACBit - 2` is set. -/
def BranchAuthFailureAborts (addr : Nat) : Bool :=
  let errorLsb := GetTopPACBit addr .instructionPointer - 2
  decide ((addr >>> errorLsb) &&& 0x3 ≠ 0)

/-! ## Helper lemmas -/

/-- Anding with a single power of two extracts that bit, expressed through
division and remainder. -/
lemma and_sign_mask (x i : Nat) : x &&& 2 ^ i = x / 2 ^ i % 2 * 2 ^ i := by
  rw [Nat.and_two_pow, Nat.toNat_testBit]

/-- Reinterpreting a signed 64-bit value as bits and back is the
identity on the int64 range. -/
lemma toInt64_toNat64 (v : Int) (h1 : -(2 ^ 63) ≤ v) (h2 : v < 2 ^ 63) :
    toInt64 (toNat64 v) = v := by
  unfold toInt64 toNat64
  omega

/-- Bitwise or of values occupying disjoint bit ranges is addition. -/
lemma lor_eq_add_of_disjoint (k a b : Nat) (hb : b < 2 ^ k) (ha : 2 ^ k ∣ a) :
    b ||| a = a + b := by
  obtain ⟨q, rfl⟩ := ha
  rw [Nat.lor_comm, ← Nat.mul_add_lt_is_or hb]

/-- `ShiftOperand` returns its input unchanged when the amount is zero,
for every shift kind, register size and value (the source's early
return). -/
lemma shiftOperand_zero (regSize : Nat) (value : Int) (st : Shift) :
    ShiftOperand regSize value st 0 = value := by
  simp [ShiftOperand]

/-- The signed reinterpretation of `w`-bit patterns is injective. -/
lemma toSigned_inj (w a b : Nat) (ha : a < 2 ^ w) (hb : b < 2 ^ w)
    (h : toSigned w a = toSigned w b) : a = b := by
  unfold toSigned at h
  have ha2 : (a : Int) < (2 : Int) ^ w := by exact_mod_cast ha
  have hb2 : (b : Int) < (2 : Int) ^ w := by exact_mod_cast hb
  have hab : (a : Int) = (b : Int) → a = b := fun hh => by exact_mod_cast hh
  split_ifs at h <;> omega

/-! ## Claim theorems -/

/-- Claim C1: for register sizes 32 and 64, operands below `2 ^ size` and
carry in `{0, 1}`, `AddWithCarry` returns `(left + right + carry_in) mod
2 ^ size` (for either value of `set_flags`), and with `set_flags` it sets
N to the result's sign bit, Z to whether the result is zero, C iff the
unsigned sum exceeds the maximum unsigned value of the size, and V iff
the operands share a sign bit and the result's sign bit differs from
it. -/
theorem addWithCarry_correct (regSize left right carryIn : Nat)
    (setFlags : Bool) (nzcv : NZCVFlags)
    (hsize : regSize = 32 ∨ regSize = 64)
    (hl : left < 2 ^ regSize) (hr : right < 2 ^ regSize) (hc : carryIn ≤ 1) :
    ((AddWithCarry regSize setFlags left right carryIn nzcv).1
        = (left + right + carryIn) % 2 ^ regSize) ∧
    ((AddWithCarry regSize true left right carryIn nzcv).2.n
        = decide ((left + right + carryIn) % 2 ^ regSize / 2 ^ (regSize - 1)
            = 1)) ∧
    ((AddWithCarry regSize true left right carryIn nzcv).2.z
        = decide ((left + right + carryIn) % 2 ^ regSize = 0)) ∧
    ((AddWithCarry regSize true left right carryIn nzcv).2.c
        = decide (left + right + carryIn > 2 ^ regSize - 1)) ∧
    ((AddWithCarry regSize true left right carryIn nzcv).2.v
        = (decide (left / 2 ^ (regSize - 1) = right / 2 ^ (regSize - 1)) &&
           decide ((left + right + carryIn) % 2 ^ regSize / 2 ^ (regSize - 1)
                    ≠ left / 2 ^ (regSize - 1)))) := by
  have hw1 : 1 ≤ regSize := by rcases hsize with h | h <;> omega
  have hmax : (if regSize = kWRegSize then kWMaxUInt else kXMaxUInt)
      = 2 ^ regSize - 1 := by
    rcases hsize with h | h <;>
      simp [h, kWRegSize, kXRegSize, kWMaxUInt, kXMaxUInt]
  have hmask : (if regSize = kWRegSize then kWRegMask else kXRegMask)
      = 2 ^ regSize - 1 := by
    rcases hsize with h | h <;>
      simp [h, kWRegSize, kXRegSize, kWRegMask, kXRegMask]
  have hsign : (if regSize = kWRegSize then kWSignMask else kXSignMask)
      = 2 ^ (regSize - 1) := by
    rcases hsize with h | h <;>
      simp [h, kWRegSize, kXRegSize, kWSignMask, kXSignMask]
  have hsplit : 2 ^ regSize = 2 * 2 ^ (regSize - 1) := by
    have h1 : regSize - 1 + 1 = regSize := by omega
    calc 2 ^ regSize = 2 ^ (regSize - 1 + 1) := by rw [h1]
    _ = 2 * 2 ^ (regSize - 1) := by rw [pow_succ]; ring
  have hH : 0 < 2 ^ (regSize - 1) := Nat.pos_pow_of_pos _ (by norm_num)
  simp only [AddWithCarry, hmax, hmask, hsign, Nat.and_pow_two_sub_one_eq_mod,
    Nat.mod_eq_of_lt hl, Nat.mod_eq_of_lt hr, CalcNFlag, CalcZFlag,
    Nat.shiftRight_eq_div_pow, Nat.and_one_is_mod, and_sign_mask,
    if_true]
  have hresM : (left + right + carryIn) % 2 ^ regSize < 2 ^ regSize :=
    Nat.mod_lt _ (by positivity)
  have hresH : (left + right + carryIn) % 2 ^ regSize / 2 ^ (regSize - 1)
      ≤ 1 := by
    have h2 : (left + right + carryIn) % 2 ^ regSize / 2 ^ (regSize - 1) < 2 :=
      (Nat.div_lt_iff_lt_mul hH).mpr (by omega)
    omega
  have hlH : left / 2 ^ (regSize - 1) ≤ 1 := by
    have h2 : left / 2 ^ (regSize - 1) < 2 :=
      (Nat.div_lt_iff_lt_mul hH).mpr (by omega)
    omega
  have hrH : right / 2 ^ (regSize - 1) ≤ 1 := by
    have h2 : right / 2 ^ (regSize - 1) < 2 :=
      (Nat.div_lt_iff_lt_mul hH).mpr (by omega)
    omega
  generalize hres : (left + right + carryIn) % 2 ^ regSize = res
    at hresM hresH ⊢
  generalize hRq : res / 2 ^ (regSize - 1) = resq at hresH ⊢
  generalize hLq : left / 2 ^ (regSize - 1) = lq at hlH ⊢
  generalize hQq : right / 2 ^ (regSize - 1) = rq at hrH ⊢
  refine ⟨by cases setFlags <;> simp, ?_, ?_, ?_, ?_⟩
  · rw [Bool.eq_iff_iff]
    simp only [decide_eq_true_eq]
    omega
  · trivial
  · rw [Bool.eq_iff_iff]
    simp only [Bool.or_eq_true, decide_eq_true_eq]
    omega
  · have e1 : (decide (lq % 2 * 2 ^ (regSize - 1) = rq % 2 * 2 ^ (regSize - 1)))
        = decide (lq = rq) := by
      rw [decide_eq_decide]
      constructor
      · intro h
        have := Nat.eq_of_mul_eq_mul_right hH h
        omega
      · intro h
        rw [h]
    have e2 : (decide (lq % 2 * 2 ^ (regSize - 1)
        ≠ resq % 2 * 2 ^ (regSize - 1)))
        = decide (resq ≠ lq) := by
      rw [decide_eq_decide]
      constructor
      · intro h heq
        exact h (by rw [heq])
      · intro h heq
        exact absurd
          (by have := Nat.eq_of_mul_eq_mul_right hH heq; omega : resq = lq) h
    rw [e1, e2]

/-- Claim C1 witness: `ADDS`-style instantiation `0x7fffffff + 1` at size
32 yields `0x80000000` with N set, Z clear, C clear and V set. -/
theorem addWithCarry_correct_witness :
    ((32 : Nat) = 32 ∨ (32 : Nat) = 64) ∧
    ((0x7fffffff : Nat) < 2 ^ 32) ∧ ((1 : Nat) < 2 ^ 32) ∧ ((0 : Nat) ≤ 1) ∧
    (((AddWithCarry 32 true 0x7fffffff 1 0 ⟨false, false, false, false⟩).1
        = (0x7fffffff + 1 + 0) % 2 ^ 32) ∧
     ((AddWithCarry 32 true 0x7fffffff 1 0 ⟨false, false, false, false⟩).2.n
        = decide ((0x7fffffff + 1 + 0) % 2 ^ 32 / 2 ^ (32 - 1) = 1)) ∧
     ((AddWithCarry 32 true 0x7fffffff 1 0 ⟨false, false, false, false⟩).2.z
        = decide ((0x7fffffff + 1 + 0) % 2 ^ 32 = 0)) ∧
     ((AddWithCarry 32 true 0x7fffffff 1 0 ⟨false, false, false, false⟩).2.c
        = decide (0x7fffffff + 1 + 0 > 2 ^ 32 - 1)) ∧
     ((AddWithCarry 32 true 0x7fffffff 1 0 ⟨false, false, false, false⟩).2.v
        = (decide ((0x7fffffff : Nat) / 2 ^ (32 - 1) = 1 / 2 ^ (32 - 1)) &&
           decide ((0x7fffffff + 1 + 0) % 2 ^ 32 / 2 ^ (32 - 1)
              ≠ (0x7fffffff : Nat) / 2 ^ (32 - 1))))) :=
  ⟨Or.inl rfl, by decide, by decide, by decide,
   addWithCarry_correct 32 0x7fffffff 1 0 true ⟨false, false, false, false⟩
     (Or.inl rfl) (by decide) (by decide) (by decide)⟩

/-- Claim C2: an exclusive store is performed iff both the local and the
global monitor consider the `(address, size)` reservation exclusive; the
status register receives 0 on success and 1 on failure; the local
monitor is cleared afterward in both cases, so a second exclusive store
without a new exclusive load fails with status 1; an exclusive load
marks the local monitor with `(address, size)`. -/
theorem exclusiveAccess_correct (globalIsExclusive : Nat → Nat → Bool)
    (m : LocalMonitor) (address accessSize address2 accessSize2 : Nat) :
    ((StoreExclusiveStep globalIsExclusive m address accessSize).doStore
        = (m.IsExclusive address accessSize &&
           globalIsExclusive address accessSize)) ∧
    ((StoreExclusiveStep globalIsExclusive m address accessSize).status
        = if (StoreExclusiveStep globalIsExclusive m address accessSize).doStore
          then 0 else 1) ∧
    ((StoreExclusiveStep globalIsExclusive m address
        accessSize).monitor.reservation = none) ∧
    ((LoadExclusiveStep m address accessSize).reservation
        = some (address, accessSize)) ∧
    ((StoreExclusiveStep globalIsExclusive
        (LoadExclusiveStep m address accessSize) address accessSize).doStore
        = globalIsExclusive address accessSize) ∧
    ((StoreExclusiveStep globalIsExclusive
        (StoreExclusiveStep globalIsExclusive m address accessSize).monitor
        address2 accessSize2).doStore = false) ∧
    ((StoreExclusiveStep globalIsExclusive
        (StoreExclusiveStep globalIsExclusive m address accessSize).monitor
        address2 accessSize2).status = 1) := by
  refine ⟨rfl, rfl, rfl, rfl, ?_, ?_, ?_⟩ <;>
    simp [StoreExclusiveStep, LoadExclusiveStep, LocalMonitor.IsExclusive,
      LocalMonitor.MarkExclusive, LocalMonitor.Clear]

/-- Claim C3: `CompareAndSwapHelper` writes the new value from `rt` to
memory iff the value read from memory equals the compare value in `rs`;
`rs` always receives the pre-swap memory value; and the local exclusive
monitor is cleared in every execution, even on comparison failure. -/
theorem compareAndSwap_correct (elementSize rsVal rtVal data : Nat)
    (m : LocalMonitor) :
    ((CompareAndSwapHelper elementSize rsVal rtVal data m).memWrite
        = if data = rsVal % 2 ^ (8 * elementSize)
          then some (rtVal % 2 ^ (8 * elementSize)) else none) ∧
    (((CompareAndSwapHelper elementSize rsVal rtVal data m).memWrite ≠ none)
        ↔ data = rsVal % 2 ^ (8 * elementSize)) ∧
    ((CompareAndSwapHelper elementSize rsVal rtVal data m).rsOut = data) ∧
    ((CompareAndSwapHelper elementSize rsVal rtVal data m).monitor.reservation
        = none) := by
  refine ⟨rfl, ?_, rfl, rfl⟩
  by_cases h : data = rsVal % 2 ^ (8 * elementSize) <;>
    simp [CompareAndSwapHelper, h]

/-- Claim C4: SDIV and UDIV at both register sizes return 0 for a zero
divisor (total functions, no trap), and SDIV of MinInt by -1 saturates
to MinInt at both sizes. -/
theorem divisionSpecialCases_correct (rn : Int) (rnu : Nat) :
    SDIV 32 rn 0 = 0 ∧ SDIV 64 rn 0 = 0 ∧
    UDIV 32 rnu 0 = 0 ∧ UDIV 64 rnu 0 = 0 ∧
    SDIV 32 kWMinInt (-1) = kWMinInt ∧ SDIV 64 kXMinInt (-1) = kXMinInt := by
  refine ⟨?_, ?_, rfl, rfl, by decide, by decide⟩ <;> norm_num [SDIV]

/-- Claim C5 counterexample: the PACIASP/PACIBSP BType check in
`VisitSystem` never aborts — not even in a guarded page with
`BranchFromGuardedNotToIP`, the state the architecture would disallow
when `SCTLR_EL1.BT0` is set, nor for any other BType — so the claim
that PACIASP/PACIBSP executed with a disallowed BType abort is false:
no BType is disallowed for them in this code. -/
theorem paciSPCheck_never_aborts :
    PaciSPBTypeCheckAborts true .BranchFromGuardedNotToIP = false ∧
    PaciSPBTypeCheckAborts true .BranchAndLink = false ∧
    PaciSPBTypeCheckAborts true .BranchFromUnguardedOrToIP = false ∧
    PaciSPBTypeCheckAborts true .DefaultBType = false := by
  decide

/-- Claim C5 (amended): in a guarded page BTI aborts iff BType is not
Default, BTI c aborts iff BType is BranchFromGuardedNotToIP, BTI j
aborts iff BType is BranchAndLink, BTI jc never aborts; the
PACIASP/PACIBSP check allows every BType (the code assumes
`SCTLR_EL1.BT0 = 0`) and therefore never aborts. -/
theorem btiAndPaciSPChecks_correct (guarded : Bool) (b : BType) :
    (BTICheckAborts .BTI guarded b = true ↔ guarded = true ∧ b ≠ .DefaultBType) ∧
    (BTICheckAborts .BTI_c guarded b = true ↔
      guarded = true ∧ b = .BranchFromGuardedNotToIP) ∧
    (BTICheckAborts .BTI_j guarded b = true ↔
      guarded = true ∧ b = .BranchAndLink) ∧
    (BTICheckAborts .BTI_jc guarded b = false) ∧
    (PaciSPBTypeCheckAborts guarded b = false) := by
  cases guarded <;> cases b <;> decide

/-- Claim C6 counterexample: `ExtendValue` with `left_shift = 0` is not
the identity: UXTB of 256 masks the value down to 0. -/
theorem extendValue_uxtb_not_identity :
    ExtendValue 64 256 .UXTB 0 = 0 ∧ (256 : Int) ≠ 0 := by
  decide

/-- Claim C6 (amended): `ShiftOperand` with amount 0 is the identity for
all four shift kinds, register sizes and int64 values; `ExtendValue`
with `left_shift = 0` is the identity for the X-form extends, and for
the narrower extends exactly when the input already lies in the
extend's value range (otherwise it masks and optionally
sign-extends). -/
theorem shiftExtendZero_correct (regSize : Nat) (value : Int) (st : Shift)
    (hlo : -(2 ^ 63) ≤ value) (hhi : value < 2 ^ 63) :
    (ShiftOperand regSize value st 0 = value) ∧
    (ExtendValue regSize value .UXTX 0 = value) ∧
    (ExtendValue regSize value .SXTX 0 = value) ∧
    (0 ≤ value → value < 2 ^ 8 → ExtendValue regSize value .UXTB 0 = value) ∧
    (0 ≤ value → value < 2 ^ 16 → ExtendValue regSize value .UXTH 0 = value) ∧
    (0 ≤ value → value < 2 ^ 32 → ExtendValue regSize value .UXTW 0 = value) ∧
    (-(2 ^ 7) ≤ value → value < 2 ^ 7 →
      ExtendValue regSize value .SXTB 0 = value) ∧
    (-(2 ^ 15) ≤ value → value < 2 ^ 15 →
      ExtendValue regSize value .SXTH 0 = value) ∧
    (-(2 ^ 31) ≤ value → value < 2 ^ 31 →
      ExtendValue regSize value .SXTW 0 = value) := by
  refine ⟨shiftOperand_zero regSize value st, ?_, ?_, ?_, ?_, ?_, ?_, ?_, ?_⟩
  · simp only [ExtendValue]
    rw [shiftOperand_zero]
    exact toInt64_toNat64 value hlo hhi
  · simp only [ExtendValue]
    rw [shiftOperand_zero]
    exact toInt64_toNat64 value hlo hhi
  · intro h0 h2
    simp only [ExtendValue, kByteMask]
    rw [shiftOperand_zero,
      show (255 : Nat) = 2 ^ 8 - 1 by norm_num, Nat.and_pow_two_sub_one_eq_mod]
    unfold toInt64 toNat64
    omega
  · intro h0 h2
    simp only [ExtendValue, kHalfWordMask]
    rw [shiftOperand_zero,
      show (65535 : Nat) = 2 ^ 16 - 1 by norm_num,
      Nat.and_pow_two_sub_one_eq_mod]
    unfold toInt64 toNat64
    omega
  · intro h0 h2
    simp only [ExtendValue, kWordMask]
    rw [shiftOperand_zero,
      show (4294967295 : Nat) = 2 ^ 32 - 1 by norm_num,
      Nat.and_pow_two_sub_one_eq_mod]
    unfold toInt64 toNat64
    omega
  · intro h0 h2
    simp only [ExtendValue, kByteMask, kXRegMask]
    rw [shiftOperand_zero,
      show (255 : Nat) = 2 ^ 8 - 1 by norm_num, Nat.and_pow_two_sub_one_eq_mod,
      show (128 : Nat) = 2 ^ 7 by norm_num, and_sign_mask,
      show ((2 ^ 64 - 1) <<< 8) &&& (2 ^ 64 - 1) = 2 ^ 64 - 2 ^ 8 by decide]
    rw [lor_eq_add_of_disjoint 8 (2 ^ 64 - 2 ^ 8) _ (Nat.mod_lt _ (by norm_num))
      ⟨2 ^ 56 - 1, by norm_num⟩]
    split_ifs with hbit
    · unfold toInt64 toNat64 at hbit ⊢
      omega
    · unfold toInt64 toNat64 at hbit ⊢
      omega
  · intro h0 h2
    simp only [ExtendValue, kHalfWordMask, kXRegMask]
    rw [shiftOperand_zero,
      show (65535 : Nat) = 2 ^ 16 - 1 by norm_num,
      Nat.and_pow_two_sub_one_eq_mod,
      show (32768 : Nat) = 2 ^ 15 by norm_num, and_sign_mask,
      show ((2 ^ 64 - 1) <<< 16) &&& (2 ^ 64 - 1) = 2 ^ 64 - 2 ^ 16 by decide]
    rw [lor_eq_add_of_disjoint 16 (2 ^ 64 - 2 ^ 16) _
      (Nat.mod_lt _ (by norm_num)) ⟨2 ^ 48 - 1, by norm_num⟩]
    split_ifs with hbit
    · unfold toInt64 toNat64 at hbit ⊢
      omega
    · unfold toInt64 toNat64 at hbit ⊢
      omega
  · intro h0 h2
    simp only [ExtendValue, kWordMask, kXRegMask]
    rw [shiftOperand_zero,
      show (4294967295 : Nat) = 2 ^ 32 - 1 by norm_num,
      Nat.and_pow_two_sub_one_eq_mod,
      show (2147483648 : Nat) = 2 ^ 31 by norm_num, and_sign_mask,
      show ((2 ^ 64 - 1) <<< 32) &&& (2 ^ 64 - 1) = 2 ^ 64 - 2 ^ 32 by decide]
    rw [lor_eq_add_of_disjoint 32 (2 ^ 64 - 2 ^ 32) _
      (Nat.mod_lt _ (by norm_num)) ⟨2 ^ 32 - 1, by norm_num⟩]
    split_ifs with hbit
    · unfold toInt64 toNat64 at hbit ⊢
      omega
    · unfold toInt64 toNat64 at hbit ⊢
      omega

/-- Claim C6 witness: at value 100 every shift kind with amount 0 and
every extend kind with left shift 0 is the identity. -/
theorem shiftExtendZero_correct_witness :
    (-(2 ^ 63) ≤ (100 : Int)) ∧ ((100 : Int) < 2 ^ 63) ∧
    (ShiftOperand 64 100 .ROR 0 = 100) ∧
    (ExtendValue 64 100 .UXTX 0 = 100) ∧ (ExtendValue 64 100 .SXTX 0 = 100) ∧
    (ExtendValue 64 100 .UXTB 0 = 100) ∧ (ExtendValue 64 100 .UXTH 0 = 100) ∧
    (ExtendValue 64 100 .UXTW 0 = 100) ∧ (ExtendValue 64 100 .SXTB 0 = 100) ∧
    (ExtendValue 64 100 .SXTH 0 = 100) ∧ (ExtendValue 64 100 .SXTW 0 = 100) := by
  obtain ⟨h1, h2, h3, h4, h5, h6, h7, h8, h9⟩ :=
    shiftExtendZero_correct 64 100 .ROR (by decide) (by decide)
  exact ⟨by decide, by decide, h1, h2, h3, h4 (by decide) (by decide),
    h5 (by decide) (by decide), h6 (by decide) (by decide),
    h7 (by decide) (by decide), h8 (by decide) (by decide),
    h9 (by decide) (by decide)⟩

/-- Claim C7: for a pointer whose PAC bits are clear before signing,
`AuthPAC` after `AddPAC` with the same modifier, key and kind returns
the pointer, and the authenticating-branch check passes on it; on an
authentication mismatch `AuthPAC` sets the marker bits inspected by the
branch check, which then aborts. -/
theorem pacRoundTripAndFailure_correct (ptr modifier p pmod : Nat)
    (key pkey : PACKey) (kind pkind : PointerType)
    (hptr : ptr < 2 ^ 48)
    (hbad : PACField p ≠ ComputePAC (StripPAC p pkind) pmod pkey % 2 ^ 8) :
    (AuthPAC (AddPAC ptr modifier key kind) modifier key kind = ptr) ∧
    (BranchAuthFailureAborts
        (AuthPAC (AddPAC ptr modifier key kind) modifier key kind) = false) ∧
    (AuthPAC p pmod pkey pkind / 2 ^ 53 % 4 ≠ 0) ∧
    (BranchAuthFailureAborts (AuthPAC p pmod pkey pkind) = true) := by
  have hstrip : StripPAC ptr kind = ptr := by
    unfold StripPAC
    omega
  have hcb : ComputePAC ptr modifier key % 2 ^ 8 < 2 ^ 8 :=
    Nat.mod_lt _ (by norm_num)
  have hadd : AddPAC ptr modifier key kind
      = ptr + ComputePAC ptr modifier key % 2 ^ 8 * 2 ^ 48 := by
    unfold AddPAC
    rw [hstrip]
  have hstrip2 : StripPAC (ptr + ComputePAC ptr modifier key % 2 ^ 8 * 2 ^ 48)
      kind = ptr := by
    unfold StripPAC
    omega
  have hfield : PACField (ptr + ComputePAC ptr modifier key % 2 ^ 8 * 2 ^ 48)
      = ComputePAC ptr modifier key % 2 ^ 8 := by
    unfold PACField
    omega
  have hauth : AuthPAC (AddPAC ptr modifier key kind) modifier key kind
      = ptr := by
    unfold AuthPAC
    rw [hadd, hstrip2, hfield, if_pos rfl]
  have hbadA : AuthPAC p pmod pkey pkind = StripPAC p pkind + 2 ^ 54 := by
    unfold AuthPAC
    rw [if_neg hbad]
    rfl
  refine ⟨hauth, ?_, ?_, ?_⟩
  · rw [hauth]
    simp only [BranchAuthFailureAborts, GetTopPACBit,
      Nat.shiftRight_eq_div_pow]
    have hz : ptr / 9007199254740992 = 0 := by omega
    simp [hz]
  · rw [hbadA]
    unfold StripPAC
    omega
  · rw [hbadA]
    simp only [BranchAuthFailureAborts, GetTopPACBit, StripPAC,
      Nat.shiftRight_eq_div_pow]
    rw [show (3 : Nat) = 2 ^ 2 - 1 by norm_num, Nat.and_pow_two_sub_one_eq_mod]
    simp only [decide_eq_true_eq]
    omega

/-- Claim C7 witness: signing `0x1234` with modifier 99 and key IA
round-trips and passes the branch check, while authenticating the null
pointer with a wrong code sets the marker bits and aborts. -/
theorem pacRoundTripAndFailure_correct_witness :
    ((0x1234 : Nat) < 2 ^ 48) ∧
    (PACField 0 ≠ ComputePAC (StripPAC 0 .instructionPointer) 0 .IA % 2 ^ 8) ∧
    ((AuthPAC (AddPAC 0x1234 99 .IA .instructionPointer) 99 .IA
        .instructionPointer = 0x1234) ∧
     (BranchAuthFailureAborts (AuthPAC (AddPAC 0x1234 99 .IA
        .instructionPointer) 99 .IA .instructionPointer) = false) ∧
     (AuthPAC 0 0 .IA .instructionPointer / 2 ^ 53 % 4 ≠ 0) ∧
     (BranchAuthFailureAborts (AuthPAC 0 0 .IA .instructionPointer) = true)) :=
  ⟨by decide, by decide,
   pacRoundTripAndFailure_correct 0x1234 99 0 0 .IA .IA .instructionPointer
     .instructionPointer (by decide) (by decide)⟩

/-- Claim C8: `GetBTypeFromInstruction` maps link-setting register
branches to `BranchAndLink`; plain register branches to
`BranchFromUnguardedOrToIP` when Rn is 16 or 17 or the PC is outside a
guarded page and to `BranchFromGuardedNotToIP` otherwise; and all other
instructions to `DefaultBType`. -/
theorem getBTypeFromInstruction_correct (op : BranchToRegOp) (rn : Nat)
    (pcInGuardedPage : Bool) :
    GetBTypeFromInstruction op rn pcInGuardedPage =
      if op = .BLR ∨ op = .BLRAA ∨ op = .BLRAB ∨ op = .BLRAAZ ∨ op = .BLRABZ then
        .BranchAndLink
      else if op = .BR ∨ op = .BRAA ∨ op = .BRAB ∨ op = .BRAAZ ∨ op = .BRABZ then
        if rn = 16 ∨ rn = 17 ∨ pcInGuardedPage = false then
          .BranchFromUnguardedOrToIP
        else .BranchFromGuardedNotToIP
      else .DefaultBType := by
  cases op <;> cases pcInGuardedPage <;>
    by_cases h16 : rn = 16 <;> by_cases h17 : rn = 17 <;>
    simp [GetBTypeFromInstruction, h16, h17]

/-- Claim C9: every atomic read-modify-write helper reads the old memory
value, writes back the value computed from the old value and the source
register by the opcode's operation (add, and-not, xor, or,
signed/unsigned max and min, or plain replacement for swap), and
returns the old value in the destination register. -/
theorem atomicMemory_rmw_correct (w : Nat) (op : AtomicOp) (rsVal data : Nat)
    (hdata : data < 2 ^ w) :
    ((AtomicMemorySimpleHelper w op rsVal data).rtOut = data) ∧
    ((AtomicMemorySwapHelper w rsVal data).rtOut = data) ∧
    ((AtomicMemorySwapHelper w rsVal data).memOut = rsVal % 2 ^ w) ∧
    (match op with
     | .LDADD => (AtomicMemorySimpleHelper w op rsVal data).memOut
         = (data + rsVal % 2 ^ w) % 2 ^ w
     | .LDCLR => ∀ i, ((AtomicMemorySimpleHelper w op rsVal data).memOut.testBit i
         = (data.testBit i && !((rsVal % 2 ^ w).testBit i)))
     | .LDEOR => ∀ i, ((AtomicMemorySimpleHelper w op rsVal data).memOut.testBit i
         = (data.testBit i).xor ((rsVal % 2 ^ w).testBit i))
     | .LDSET => ∀ i, ((AtomicMemorySimpleHelper w op rsVal data).memOut.testBit i
         = (data.testBit i || (rsVal % 2 ^ w).testBit i))
     | .LDSMAX => toSigned w (AtomicMemorySimpleHelper w op rsVal data).memOut
         = max (toSigned w data) (toSigned w (rsVal % 2 ^ w))
     | .LDUMAX => (AtomicMemorySimpleHelper w op rsVal data).memOut
         = max data (rsVal % 2 ^ w)
     | .LDSMIN => toSigned w (AtomicMemorySimpleHelper w op rsVal data).memOut
         = min (toSigned w data) (toSigned w (rsVal % 2 ^ w))
     | .LDUMIN => (AtomicMemorySimpleHelper w op rsVal data).memOut
         = min data (rsVal % 2 ^ w)) := by
  have hval : rsVal % 2 ^ w < 2 ^ w := Nat.mod_lt _ (by positivity)
  refine ⟨rfl, rfl, rfl, ?_⟩
  cases op
  case LDADD => rfl
  case LDCLR =>
    intro i
    simp only [AtomicMemorySimpleHelper, Nat.testBit_and, Nat.testBit_xor,
      Nat.testBit_two_pow_sub_one]
    by_cases hi : i < w
    · simp [hi]
    · have h1 : data.testBit i = false :=
        Nat.testBit_lt_two_pow (lt_of_lt_of_le hdata
          (Nat.pow_le_pow_right (by norm_num) (by omega)))
      simp [hi, h1]
  case LDEOR =>
    intro i
    simp [AtomicMemorySimpleHelper, Nat.testBit_xor]
  case LDSET =>
    intro i
    simp [AtomicMemorySimpleHelper, Nat.testBit_or]
  case LDSMAX =>
    simp only [AtomicMemorySimpleHelper]
    split_ifs with h
    · exact (max_eq_left h.le).symm
    · rcases eq_or_lt_of_le (not_lt.mp h) with heq | hlt
      · rw [toSigned_inj w data (rsVal % 2 ^ w) hdata hval heq]
        simp
      · exact (max_eq_right hlt.le).symm
  case LDUMAX =>
    simp only [AtomicMemorySimpleHelper]
    split_ifs with h <;> omega
  case LDSMIN =>
    simp only [AtomicMemorySimpleHelper]
    split_ifs with h
    · exact (min_eq_right h.le).symm
    · rcases eq_or_lt_of_le (not_lt.mp h) with heq | hlt
      · rw [toSigned_inj w data (rsVal % 2 ^ w) hdata hval heq]
        simp
      · exact (min_eq_left hlt.le).symm
  case LDUMIN =>
    simp only [AtomicMemorySimpleHelper]
    split_ifs with h <;> omega

/-- Claim C9 witness: byte-sized LDADD of 5 into memory holding 7 writes
back 12 and returns 7 in the destination; swap writes 5 and returns 7. -/
theorem atomicMemory_rmw_correct_witness :
    ((7 : Nat) < 2 ^ 8) ∧
    ((AtomicMemorySimpleHelper 8 .LDADD 5 7).rtOut = 7) ∧
    ((AtomicMemorySwapHelper 8 5 7).rtOut = 7) ∧
    ((AtomicMemorySwapHelper 8 5 7).memOut = 5 % 2 ^ 8) ∧
    ((AtomicMemorySimpleHelper 8 .LDADD 5 7).memOut
        = (7 + 5 % 2 ^ 8) % 2 ^ 8) :=
  ⟨by decide, (atomicMemory_rmw_correct 8 .LDADD 5 7 (by decide)).1,
   (atomicMemory_rmw_correct 8 .LDADD 5 7 (by decide)).2.1,
   (atomicMemory_rmw_correct 8 .LDADD 5 7 (by decide)).2.2.1,
   (atomicMemory_rmw_correct 8 .LDADD 5 7 (by decide)).2.2.2⟩

/-- Claim C10: `CompareAndSwapPairHelper` pairs the higher-numbered
register with the lower address: the value read from the base address is
compared against register `rs + 1` and returned in `rs + 1`, the value
read from `address + elementSize` is compared against `rs` and returned
in `rs`, and on a full match register `rt + 1` is written to the base
address and `rt` to `address + elementSize`. -/
theorem compareAndSwapPair_correct (elementSize rsVal rs1Val rtVal rt1Val
    dataHigh dataLow : Nat) (m : LocalMonitor) :
    ((CompareAndSwapPairHelper elementSize rsVal rs1Val rtVal rt1Val dataHigh
        dataLow m).rs1Out = dataHigh) ∧
    ((CompareAndSwapPairHelper elementSize rsVal rs1Val rtVal rt1Val dataHigh
        dataLow m).rsOut = dataLow) ∧
    ((CompareAndSwapPairHelper elementSize rsVal rs1Val rtVal rt1Val dataHigh
        dataLow m).memWriteAtAddress
        = if dataHigh = rs1Val % 2 ^ (8 * elementSize) ∧
             dataLow = rsVal % 2 ^ (8 * elementSize)
          then some (rt1Val % 2 ^ (8 * elementSize)) else none) ∧
    ((CompareAndSwapPairHelper elementSize rsVal rs1Val rtVal rt1Val dataHigh
        dataLow m).memWriteAtAddress2
        = if dataHigh = rs1Val % 2 ^ (8 * elementSize) ∧
             dataLow = rsVal % 2 ^ (8 * elementSize)
          then some (rtVal % 2 ^ (8 * elementSize)) else none) ∧
    ((CompareAndSwapPairHelper elementSize rsVal rs1Val rtVal rt1Val dataHigh
        dataLow m).monitor.reservation = none) := by
  exact ⟨rfl, rfl, rfl, rfl, rfl⟩

end Vixl
